import Mathlib

/-!
Verification of `griffe_warnings_deprecated/extension.py`, a griffe extension
that extracts deprecation metadata from `@warnings.deprecated`-style decorators
and injects admonitions / per-parameter notes into docstrings.

The host object model (griffe expressions, docstring sections, objects) is an
external collaborator of the program; it is embedded here as plain data types
exposing exactly the interface the extension consumes.  Python exceptions are
embedded with `Except PyErr`; calls to `logger.debug` are embedded as a list of
emitted messages returned next to the result.  Machine-checked definitions are
translated line by line from the source file.
-/

namespace GriffeWD

/-- Python exceptions that the extension can raise or catch. -/
inductive PyErr where
  | valueError
  | indexError
  | attributeError
  deriving DecidableEq, Repr

/-- Python literal values, as returned by `ast.literal_eval` (restricted to the
literal shapes this extension can meet: strings, integers, `None` and lists). -/
inductive PyVal where
  | str (s : String)
  | int (n : Int)
  | none
  | list (elems : List PyVal)

/-- Python truthiness of a value (`if value:`). -/
def PyVal.truthy : PyVal → Bool
  | .str s => !(s == "")
  | .int n => !(n == 0)
  | .none => false
  | .list xs => !xs.isEmpty

mutual

/-- Python equality on literal values (used by dict keys and `in`). -/
def PyVal.beq : PyVal → PyVal → Bool
  | .str a, .str b => a == b
  | .int a, .int b => a == b
  | .none, .none => true
  | .list xs, .list ys => PyVal.beqList xs ys
  | _, _ => false

/-- Pointwise `PyVal.beq` on lists. -/
def PyVal.beqList : List PyVal → List PyVal → Bool
  | [], [] => true
  | x :: xs, y :: ys => PyVal.beq x y && PyVal.beqList xs ys
  | _, _ => false

end

instance : BEq PyVal := ⟨PyVal.beq⟩

mutual

/-- Python `repr` of a literal value (escape corner cases are not needed by the
extension and are not modelled). -/
def PyVal.pyRepr : PyVal → String
  | .str s => "\x27" ++ s ++ "\x27"
  | .int n => toString n
  | .none => "None"
  | .list xs => "[" ++ PyVal.pyReprList xs ++ "]"

/-- Comma-joined `repr` of the elements of a list value. -/
def PyVal.pyReprList : List PyVal → String
  | [] => ""
  | [x] => PyVal.pyRepr x
  | x :: xs => PyVal.pyRepr x ++ ", " ++ PyVal.pyReprList xs

end

/-- Python `str` of a literal value, as used by f-string interpolation. -/
def PyVal.pyStr : PyVal → String
  | .str s => s
  | v => v.pyRepr

/-- Griffe expression nodes, restricted to the interface the extension reads.
`lit` is a plain source string (griffe keeps simple literals as `str`); its
field is the value `ast.literal_eval` recovers from it, or `Option.none` when
the source is not a literal that evaluates (`ValueError`). -/
inductive GExpr where
  | lit (v : Option PyVal)
  | exprName (name : String)
  | exprList (elements : List GExpr)
  | exprDict (keys : List GExpr) (values : List GExpr)
  | exprCall (function : GExpr) (arguments : List GExpr)
  | exprKeyword (name : String) (value : GExpr)

/-- `isinstance(e, ExprCall)`. -/
def GExpr.isCall : GExpr → Bool
  | .exprCall _ _ => true
  | _ => false

/-- `isinstance(e, ExprKeyword)`. -/
def GExpr.isKeyword : GExpr → Bool
  | .exprKeyword _ _ => true
  | _ => false

/-- `isinstance(e, ExprList)`. -/
def GExpr.isList : GExpr → Bool
  | .exprList _ => true
  | _ => false

/-- Attribute access `e.elements`: only `ExprList` has it, otherwise Python
raises `AttributeError`. -/
def GExpr.elementsAttr : GExpr → Except PyErr (List GExpr)
  | .exprList es => .ok es
  | _ => .error .attributeError

/-- Attribute access `e.name`: `ExprName` and `ExprKeyword` expose a `name`
attribute, other nodes raise `AttributeError`. -/
def GExpr.nameAttr : GExpr → Except PyErr String
  | .exprName n => .ok n
  | .exprKeyword n _ => .ok n
  | _ => .error .attributeError

/-- Iterating a griffe expression (`for arg in decorator.value`) yields its
immediate components; for a call that includes the callee and every argument
(the punctuation strings griffe also yields are never `ExprKeyword`, which is
all the extension looks for, so they are omitted). -/
def GExpr.iterate : GExpr → List GExpr
  | .exprCall f args => f :: args
  | e => [e]

/-- `ast.literal_eval` on an argument value: succeeds exactly on a plain
literal source string, anything else raises `ValueError`. -/
def litEval : GExpr → Except PyErr PyVal
  | .lit (some v) => .ok v
  | _ => .error .valueError

/-- View a keyword argument as its (name, value) pair. -/
def keywordOf : GExpr → Option (String × GExpr)
  | .exprKeyword n v => some (n, v)
  | _ => Option.none

/-- A griffe decorator: its canonical dotted callable path and its value
expression. -/
structure Decorator where
  callable_path : String
  value : GExpr

/-- One parameter entry of a parameters docstring section. -/
structure DocstringParameter where
  name : String
  description : String
  deriving DecidableEq, Repr

/-- Parsed docstring sections, restricted to what the extension touches:
admonitions (kind, title, text), parameter sections, and everything else kept
opaque.  Title and text of an admonition are `PyVal` because the extension can
route a non-string literal there. -/
inductive DocSection where
  | admonition (kind : String) (title : PyVal) (text : PyVal)
  | parameters (value : List DocstringParameter)
  | other (tag : String)

/-- A griffe object (class or function), restricted to the attributes the
extension reads or writes.  `ancestorNames` lists the names of `parent`,
`parent.parent`, ..., up to the root of the module tree (griffe guarantees a
tree, so the chain is a finite list).  `docstring` is the parsed section list,
or `Option.none` when the object has no docstring. -/
structure GObj where
  name : String
  ancestorNames : List String
  decorators : List Decorator
  parameters : List String
  docstring : Option (List DocSection)
  deprecated : Option PyVal
  labels : List String

/-- The recognized deprecation-decorator callable paths (`_decorators`). -/
def _decorators : List String := ["warnings.deprecated", "typing_extensions.deprecated", "braian.utils.deprecated"]

/-- Whether a decorator is honored: recognized callable path and a call-shaped
value (the two-sided guard shared by `_deprecated` and
`_braian_deprecate_params`). -/
def decMatches (d : Decorator) : Bool :=
  _decorators.contains d.callable_path && d.value.isCall

/-- `"x".startswith("_")`. -/
def startsWithUnderscore (s : String) : Bool :=
  match s.data with
  | [] => false
  | c :: _ => c = '_'

/-- Walk used by `_object_anchestry`: keep each name on the chain unless it is
private-looking (leading underscore), except the root, which is always kept.
The input lists the object itself first, then its ancestors up to the root. -/
def collectAncNames : List String → List String
  | [] => []
  | [root] => [root]
  | n :: rest => (if startsWithUnderscore n then [] else [n]) ++ collectAncNames rest

/-- `_object_anchestry`: the dotted ancestry of an object, root first. -/
def _object_anchestry (obj : GObj) : List String :=
  (collectAncNames (obj.name :: obj.ancestorNames)).reverse

/-- Python `"s".split(".")` (structural, so that the kernel can evaluate it). -/
def splitDotsAux : List Char → String → List String
  | [], acc => [acc]
  | c :: cs, acc => if c = '.' then acc :: splitDotsAux cs "" else splitDotsAux cs (acc.push c)

/-- Python `"s".split(".")`. -/
def splitDots (s : String) : List String :=
  splitDotsAux s.data ""

/-- Python `sep.join(xs)` (structural). -/
def joinSep (sep : String) : List String → String
  | [] => ""
  | [x] => x
  | x :: xs => x ++ sep ++ joinSep sep xs

/-- `_remove_common_anchestors`: split the dotted path, pair it positionally
with the ancestry, keep the pairs whose two segments are equal, and drop that
many leading segments from the path.  The Python parameter is annotated `str`
but receives an `ast.literal_eval` result; a non-string raises
`AttributeError` at the `.split` call. -/
def _remove_common_anchestors (package_path : PyVal) (other_anchestry : List String) : Except PyErr String :=
  match package_path with
  | .str s =>
    let anchestry := splitDots s
    let common := (anchestry.zip other_anchestry).filter fun p => p.1 == p.2
    .ok (joinSep "." (anchestry.drop common.length))
  | _ => .error .attributeError

/-- Python truthiness of an optional value (`if alternative:`). -/
def pyOptTruthy : Option PyVal → Bool
  | some v => v.truthy
  | Option.none => false

/-- `_deprecate_param`: the per-parameter deprecation notice. -/
def _deprecate_param (since : PyVal) (alternative : Option PyVal) : String :=
  let message := "**Deprecated since " ++ since.pyStr ++ "**"
  if pyOptTruthy alternative then
    message ++ ": use `" ++ (alternative.getD PyVal.none).pyStr ++ "` instead.\n\n"
  else
    message ++ "\n\n"

/-- A Python variable that was assigned an `ast.literal_eval` result and is
later tested with `is None`: evaluating to the `None` object and never being
assigned are indistinguishable for every use the extension makes. -/
def pyNoneToOpt (v : PyVal) : Option PyVal :=
  match v with
  | .none => Option.none
  | v => some v

/-- First dict entry whose key equals `k` under Python equality. -/
def pyDictFind (d : List (PyVal × α)) (k : PyVal) : Option α :=
  (d.find? fun kv => kv.1 == k).map (·.2)

/-- Python dict insertion: overwrite the value when the key exists, append
otherwise. -/
def pyDictInsert (d : List (PyVal × α)) (k : PyVal) (v : α) : List (PyVal × α) :=
  if d.any fun kv => kv.1 == k then
    d.map fun kv => if kv.1 == k then (kv.1, v) else kv
  else
    d ++ [(k, v)]

/-- Build a Python dict from a pair list (later pairs overwrite earlier). -/
def pyDictOfList (ps : List (PyVal × α)) : List (PyVal × α) :=
  ps.foldl (fun acc kv => pyDictInsert acc kv.1 kv.2) []

/-- `except ValueError: pass` around one argument of a decorator call: the
state survives a `ValueError`, every other exception propagates. -/
def catchValueError (st : σ) (r : Except PyErr σ) : Except PyErr σ :=
  match r with
  | .error .valueError => .ok st
  | r => r

/-- The debug message `logger.debug` emits when no static `since` was found. -/
def noSinceMsg (name : String) : String :=
  "No static string or \x27since=<string>\x27 keyword found for \x27" ++ name ++ "\x27"

/-- A Python list comprehension `[f(e) for e in xs]` over a fallible `f`:
elements are evaluated left to right and the first exception propagates. -/
def mapExcept (f : α → Except PyErr β) : List α → Except PyErr (List β)
  | [] => .ok []
  | x :: xs => do
    let y ← f x
    let ys ← mapExcept f xs
    .ok (y :: ys)

/-- Mutable state of the loop in `_braian_deprecate_params`: `since`, `params`
and `alternatives` as assigned so far. -/
structure BState where
  since : Option PyVal
  params : List PyVal
  alternatives : List (PyVal × PyVal)

/-- Body of one `match arg.name` case of `_braian_deprecate_params`, before
the surrounding `except ValueError` (`"since"` stores the literal, `"params"`
maps `literal_eval` over `arg.value.elements`, `"alternatives"` accepts the
`dict(...)` call form and the dict-literal form, every other name is
ignored). -/
def paramArgBody (st : BState) (n : String) (v : GExpr) : Except PyErr BState :=
  if n = "since" then
    match litEval v with
    | .ok val => .ok { st with since := pyNoneToOpt val }
    | .error e => .error e
  else if n = "params" then do
    let es ← v.elementsAttr
    let vs ← mapExcept litEval es
    .ok { st with params := vs }
  else if n = "alternatives" then
    match v with
    | .exprCall f args => do
      let nm ← f.nameAttr
      if nm = "dict" then do
        let ps ← mapExcept
          (fun kv => do
            let x ← litEval kv.2
            pure (PyVal.str kv.1, x))
          (args.filterMap keywordOf)
        pure { st with alternatives := pyDictOfList ps }
      else
        pure st
    | .exprDict ks vs => do
      let kvals ← mapExcept litEval ks
      let vvals ← mapExcept litEval vs
      pure { st with alternatives := pyDictOfList (kvals.zip vvals) }
    | _ => pure st
  else
    pure st

/-- One iterated element of the decorator call in `_braian_deprecate_params`:
non-keywords are skipped, a keyword is processed with `ValueError` caught. -/
def paramArgStep (st : BState) (arg : GExpr) : Except PyErr BState :=
  match arg with
  | .exprKeyword n v => catchValueError st (paramArgBody st n v)
  | _ => .ok st

/-- `for arg in decorator.value: ...` of `_braian_deprecate_params`. -/
def processCallArgsP (st : BState) (call : GExpr) : Except PyErr BState :=
  call.iterate.foldlM paramArgStep st

/-- The final dict comprehension of `_braian_deprecate_params`. -/
def braianFinal (st : BState) : List (PyVal × String) :=
  st.params.foldl
    (fun acc p =>
      pyDictInsert acc p (_deprecate_param (st.since.getD PyVal.none) (pyDictFind st.alternatives p)))
    []

/-- The decorator loop of `_braian_deprecate_params`: every matching decorator
is processed (the loop never breaks), and after each matching decorator a
missing `since` returns the empty dict and logs the debug message. -/
def braianLoop (objName : String) : List Decorator → BState → Except PyErr (List (PyVal × String) × List String)
  | [], st => .ok (braianFinal st, [])
  | d :: ds, st =>
    if decMatches d then do
      let st2 ← processCallArgsP st d.value
      if st2.since.isNone then
        .ok ([], [noSinceMsg objName])
      else
        braianLoop objName ds st2
    else
      braianLoop objName ds st

/-- `_braian_deprecate_params`: per-parameter deprecation messages keyed by
parameter name, next to the debug messages logged. -/
def _braian_deprecate_params (obj : GObj) : Except PyErr (List (PyVal × String) × List String) :=
  braianLoop obj.name obj.decorators ⟨Option.none, [], []⟩

/-- Local variables of `_deprecated_braian`: `message`, `since` and
`alternatives` as assigned so far. -/
structure DArgs where
  message : Option PyVal
  since : Option PyVal
  alternatives : Option (List PyVal)

/-- Body of one `match arg.name` case of `_deprecated_braian`, before the
surrounding `except ValueError` (`"message"` and `"since"` store literals,
`"alternatives"` maps `literal_eval` over `arg.value.elements` — so only an
`ExprList` value works, anything else raises `AttributeError` —, every other
name is ignored). -/
def depArgBody (st : DArgs) (n : String) (v : GExpr) : Except PyErr DArgs :=
  if n = "message" then
    match litEval v with
    | .ok val => .ok { st with message := pyNoneToOpt val }
    | .error e => .error e
  else if n = "since" then
    match litEval v with
    | .ok val => .ok { st with since := pyNoneToOpt val }
    | .error e => .error e
  else if n = "alternatives" then do
    let es ← v.elementsAttr
    let vs ← mapExcept litEval es
    .ok { st with alternatives := some vs }
  else
    .ok st

/-- One iterated element of the decorator call in `_deprecated_braian`:
non-keywords are skipped, a keyword is processed with `ValueError` caught. -/
def depArgStep (st : DArgs) (arg : GExpr) : Except PyErr DArgs :=
  match arg with
  | .exprKeyword n v => catchValueError st (depArgBody st n v)
  | _ => .ok st

/-- The cross-reference link rendered for one alternative path in
`_deprecated_braian`: display text with common ancestors removed, target the
full dotted path. -/
def renderAlternative (anc : List String) (a : PyVal) : Except PyErr String := do
  let d ← _remove_common_anchestors a anc
  .ok ("[`" ++ d ++ "`][" ++ a.pyStr ++ "]")

/-- `_deprecated_braian`: structured-keyword whole-object extraction.  Returns
the composed text (or `Option.none` plus a logged debug message when no static
`since` was found). -/
def _deprecated_braian (obj : GObj) (call : GExpr) : Except PyErr (Option String × List String) := do
  let st ← call.iterate.foldlM depArgStep ⟨Option.none, Option.none, Option.none⟩
  match st.since with
  | Option.none => .ok (Option.none, [noSinceMsg obj.name])
  | some s =>
    let text := "`" ++ obj.name ++ "` is deprecated since " ++ s.pyStr ++ " and may be removed in future versions."
    let text :=
      match st.message with
      | some m => text ++ "\n\n" ++ m.pyStr
      | Option.none => text
    match st.alternatives with
    | some alts =>
      if alts.isEmpty then
        .ok (some text, [])
      else do
        let anc := _object_anchestry obj
        let links ← mapExcept (renderAlternative anc) alts
        .ok (some (text ++ "\n\n**Alternative" ++ (if links.length > 1 then "s" else "") ++ "**: " ++ joinSep ", " links), [])
    | Option.none => .ok (some text, [])

/-- Wrap the text of `_deprecated_braian` back into a Python value for
`_deprecated`. -/
def depBraianWrap (obj : GObj) (call : GExpr) : Except PyErr (Option PyVal × List String) :=
  match _deprecated_braian obj call with
  | .ok (some t, logs) => .ok (some (.str t), logs)
  | .ok (Option.none, logs) => .ok (Option.none, logs)
  | .error e => .error e

/-- The decorator loop of `_deprecated`: the first decorator with a recognized
path and a call-shaped value always returns.  `decorator.value.arguments[0]`
is evaluated before the `try`, so an argument-less call raises `IndexError`
(the `except (ValueError, IndexError)` only guards the `ast.literal_eval`
line).  A literal first argument is the whole message (PEP-702 short form);
otherwise the structured-keyword form is tried. -/
def depLoop (obj : GObj) : List Decorator → Except PyErr (Option PyVal × List String)
  | [] => .ok (Option.none, [])
  | d :: ds =>
    if decMatches d then
      match d.value with
      | .exprCall f args =>
        match args with
        | [] => .error .indexError
        | a :: _ =>
          match litEval a with
          | .ok v => .ok (some v, [])
          | .error .valueError => depBraianWrap obj (.exprCall f args)
          | .error .indexError => depBraianWrap obj (.exprCall f args)
          | .error e => .error e
      | _ => depLoop obj ds
    else
      depLoop obj ds

/-- `_deprecated`: whole-object extraction over the decorator list. -/
def _deprecated (obj : GObj) : Except PyErr (Option PyVal × List String) :=
  depLoop obj obj.decorators

/-- The extension configuration assembled by `WarningsDeprecatedExtension.__init__`
(`self.title = title or ""` has already collapsed a missing title to `""`). -/
structure ExtConfig where
  kind : String
  title : String
  label : Option String

/-- `WarningsDeprecatedExtension(kind, title, label)`. -/
def mkExtension (kind : String) (title : Option String) (label : Option String) : ExtConfig :=
  ⟨kind, title.getD "", label⟩

/-- Insert a string into a Python set of labels. -/
def setAdd (s : List String) (x : String) : List String :=
  if x ∈ s then s else s ++ [x]

/-- `if self.label: obj.labels.add(self.label)`. -/
def labelApply (cfg : ExtConfig) (labels : List String) : List String :=
  match cfg.label with
  | some l => if l = "" then labels else setAdd labels l
  | Option.none => labels

/-- `WarningsDeprecatedExtension._insert_message`: when a title is configured
the admonition keeps it and the message is the body; with no configured title
the two swap (the message becomes the title and the body is the empty
string).  An absent docstring is replaced by an empty one, and the admonition
is inserted at position 0. -/
def _insert_message (cfg : ExtConfig) (obj : GObj) (message : PyVal) : GObj :=
  let tm : PyVal × PyVal :=
    if cfg.title = "" then (message, .str "") else (.str cfg.title, message)
  let sections := obj.docstring.getD []
  { obj with docstring := some (.admonition cfg.kind tm.1 tm.2 :: sections) }

/-- `WarningsDeprecatedExtension._insert_message_on_param`: a documented no-op
when the function has no docstring; otherwise every entry of every parameters
section whose name matches gets the message prepended to its description. -/
def _insert_message_on_param (fn : GObj) (paramName : String) (message : String) : GObj :=
  match fn.docstring with
  | Option.none => fn
  | some sections =>
    { fn with docstring := some (sections.map fun s =>
        match s with
        | .parameters ps => .parameters (ps.map fun p =>
            if p.name == paramName then ⟨p.name, message ++ p.description⟩ else p)
        | s => s) }

/-- The shared whole-object body of both hooks (`on_class_instance`, and the
`elif` branch of `on_function_instance`, which duplicate it line for line):
set `deprecated`, insert the admonition, add the label. -/
def processWholeObject (cfg : ExtConfig) (obj : GObj) : Except PyErr GObj := do
  let r ← _deprecated obj
  match r.1 with
  | some message =>
    if message.truthy then
      .ok { _insert_message cfg { obj with deprecated := some message } message with
            labels := labelApply cfg obj.labels }
    else
      .ok obj
  | Option.none => .ok obj

/-- `WarningsDeprecatedExtension.on_class_instance`. -/
def on_class_instance (cfg : ExtConfig) (cls : GObj) : Except PyErr GObj :=
  processWholeObject cfg cls

/-- One turn of the parameter loop in `on_function_instance`: a parameter
found in the extracted dict gets its message inserted. -/
def paramStep (dp : List (PyVal × String)) (f : GObj) (pname : String) : GObj :=
  match pyDictFind dp (.str pname) with
  | some msg => _insert_message_on_param f pname msg
  | Option.none => f

/-- `WarningsDeprecatedExtension.on_function_instance`: the per-parameter path
runs when `_braian_deprecate_params` produced a non-empty dict, otherwise the
whole-object path runs. -/
def on_function_instance (cfg : ExtConfig) (func : GObj) : Except PyErr GObj := do
  let r ← _braian_deprecate_params func
  if r.1.isEmpty then
    processWholeObject cfg func
  else
    .ok (func.parameters.foldl (paramStep r.1) func)

/-- Whether a keyword value can never provide a static `since`: its
`ast.literal_eval` either raises `ValueError` or yields the `None` object. -/
def sinceUnresolvedB (v : GExpr) : Bool :=
  match litEval v with
  | .error .valueError => true
  | .ok .none => true
  | _ => false

/-- Arguments on which `_deprecated_braian` completes without an exception and
without resolving `since`: every keyword named `since` is unresolvable and
every keyword named `alternatives` carries a list expression (the only shape
whose `.elements` attribute exists). -/
def safeNoSinceW (e : GExpr) : Bool :=
  match e with
  | .exprKeyword n v =>
    (if n = "since" then sinceUnresolvedB v else true) &&
    (if n = "alternatives" then v.isList else true)
  | _ => true

/-- Whether an `alternatives` keyword value is processed by
`_braian_deprecate_params` without an exception: a call value needs a callee
exposing a `name` attribute, everything else is safe. -/
def altSafeP (v : GExpr) : Bool :=
  match v with
  | .exprCall f _ =>
    match f.nameAttr with
    | .ok _ => true
    | .error _ => false
  | _ => true

/-- Arguments on which `_braian_deprecate_params` completes without an
exception and without resolving `since`. -/
def safeNoSinceP (e : GExpr) : Bool :=
  match e with
  | .exprKeyword n v =>
    (if n = "since" then sinceUnresolvedB v else true) &&
    (if n = "params" then v.isList else true) &&
    (if n = "alternatives" then altSafeP v else true)
  | _ => true

/-- Modelled from the spec: the length of the common path-segment prefix of
two segment lists, computed by comparing segment-by-segment from the root and
stopping at the first divergence. -/
def specFirstDivergenceLen : List String → List String → Nat
  | a :: as, b :: bs => if a = b then specFirstDivergenceLen as bs + 1 else 0
  | _, _ => 0

/-- Modelled from the spec: the display text of an alternative link, the
dotted path with the common path-segment prefix with the ancestry stripped,
the prefix being computed up to the first divergence. -/
def specDisplayText (path : String) (anc : List String) : String :=
  joinSep "." ((splitDots path).drop (specFirstDivergenceLen (splitDots path) anc))

/-- Frame relation on one docstring-parameter entry under the extracted
per-parameter dict `dp`: the name is unchanged, the description at most gains
some text in front, and an entry whose name is not a key of `dp` is exactly
unchanged. -/
def descFrame (dp : List (PyVal × String)) (p q : DocstringParameter) : Prop :=
  q.name = p.name ∧ (∃ pre, q.description = pre ++ p.description) ∧
    (pyDictFind dp (.str p.name) = Option.none → q.description = p.description)

/-- Frame relation on one docstring section: parameter sections are related
entrywise by `descFrame`, every other section (admonitions included) is
exactly unchanged. -/
def secFrame (dp : List (PyVal × String)) (s t : DocSection) : Prop :=
  match s, t with
  | .parameters ps, .parameters qs => List.Forall₂ (descFrame dp) ps qs
  | s, t => t = s

/-- Frame relation on an optional parsed docstring: absence is preserved and
the section lists are related pointwise (so no section is inserted or
removed). -/
def docFrame (dp : List (PyVal × String)) : Option (List DocSection) → Option (List DocSection) → Prop
  | Option.none, Option.none => True
  | some ss, some ts => List.Forall₂ (secFrame dp) ss ts
  | _, _ => False

/-- Frame relation on a whole object: every attribute except the docstring is
unchanged — in particular `deprecated` and `labels` — and the docstring obeys
`docFrame`. -/
def objFrame (dp : List (PyVal × String)) (f g : GObj) : Prop :=
  g.name = f.name ∧ g.ancestorNames = f.ancestorNames ∧ g.decorators = f.decorators ∧
  g.parameters = f.parameters ∧ g.deprecated = f.deprecated ∧ g.labels = f.labels ∧
  docFrame dp f.docstring g.docstring

/-- A generic callee expression for the example decorator calls. -/
def exCallee : GExpr := .exprName "deprecated"

/-- Example (spec section 8): a class `pkg.sub.Obj` deprecated with a single
alternative `pkg.sub.other`. -/
def exAltObj : GObj :=
  ⟨"Obj", ["sub", "pkg"],
   [⟨"warnings.deprecated", .exprCall exCallee
      [.exprKeyword "since" (.lit (some (.str "1.0"))),
       .exprKeyword "alternatives" (.exprList [.lit (some (.str "pkg.sub.other"))])]⟩],
   [], Option.none, Option.none, []⟩

/-- A recognized decorator called with no arguments (`@warnings.deprecated()`). -/
def exZeroArgObj : GObj :=
  ⟨"C", ["pkg"], [⟨"warnings.deprecated", .exprCall exCallee []⟩], [], Option.none, Option.none, []⟩

/-- A matching per-parameter decorator with `since="1.0"`, `params=["x"]`. -/
def exDecParamsX : Decorator :=
  ⟨"braian.utils.deprecated", .exprCall exCallee
    [.exprKeyword "since" (.lit (some (.str "1.0"))),
     .exprKeyword "params" (.exprList [.lit (some (.str "x"))])]⟩

/-- A matching per-parameter decorator with `since="2.0"`, `params=["y"]`. -/
def exDecParamsY : Decorator :=
  ⟨"braian.utils.deprecated", .exprCall exCallee
    [.exprKeyword "since" (.lit (some (.str "2.0"))),
     .exprKeyword "params" (.exprList [.lit (some (.str "y"))])]⟩

/-- A function carrying both matching per-parameter decorators. -/
def exTwoDecObj : GObj := ⟨"f", [], [exDecParamsX, exDecParamsY], ["x", "y"], Option.none, Option.none, []⟩

/-- The same function carrying only the first matching decorator. -/
def exOneDecObj : GObj := ⟨"f", [], [exDecParamsX], ["x", "y"], Option.none, Option.none, []⟩

/-- Whole-object structured keywords with a list-literal `alternatives`. -/
def exWholeListObj : GObj :=
  ⟨"C", ["pkg"],
   [⟨"warnings.deprecated", .exprCall exCallee
      [.exprKeyword "since" (.lit (some (.str "1.0"))),
       .exprKeyword "alternatives" (.exprList [.lit (some (.str "pkg.other"))])]⟩],
   [], Option.none, Option.none, []⟩

/-- The same whole-object structured keywords with a dict-literal
`alternatives` (`{"pkg.other": "x"}`). -/
def exWholeDictObj : GObj :=
  ⟨"C", ["pkg"],
   [⟨"warnings.deprecated", .exprCall exCallee
      [.exprKeyword "since" (.lit (some (.str "1.0"))),
       .exprKeyword "alternatives" (.exprDict [.lit (some (.str "pkg.other"))] [.lit (some (.str "x"))])]⟩],
   [], Option.none, Option.none, []⟩

/-- The composed text of `exWholeListObj`. -/
def exWholeListText : String :=
  "`C` is deprecated since 1.0 and may be removed in future versions.\n\n**Alternative**: [`other`][pkg.other]"

/-- An object with a single unrecognized decorator. -/
def exPlainObj : GObj :=
  ⟨"plain", ["pkg"], [⟨"functools.cache", .exprCall exCallee []⟩], ["a"],
   some [.other "summary"], Option.none, []⟩

/-- Structured-keyword call whose `since` cannot be resolved statically
(a name, not a literal) next to a resolvable `message`. -/
def exNoSinceObj : GObj :=
  ⟨"C", ["pkg"],
   [⟨"typing_extensions.deprecated", .exprCall exCallee
      [.exprKeyword "message" (.lit (some (.str "m"))),
       .exprKeyword "since" (.exprName "VERSION")]⟩],
   [], some [.other "summary"], Option.none, []⟩

/-- PEP-702 short form: a single literal string argument. -/
def exShortFormObj : GObj :=
  ⟨"C", ["pkg"], [⟨"warnings.deprecated", .exprCall exCallee [.lit (some (.str "use other"))]⟩],
   [], some [.other "summary"], Option.none, []⟩

/-- The per-parameter example decorator of the spec:
`params=["x"], alternatives={"x": "y"}, since="2.0"`. -/
def exParamDec : Decorator :=
  ⟨"braian.utils.deprecated", .exprCall exCallee
    [.exprKeyword "params" (.exprList [.lit (some (.str "x"))]),
     .exprKeyword "alternatives" (.exprDict [.lit (some (.str "x"))] [.lit (some (.str "y"))]),
     .exprKeyword "since" (.lit (some (.str "2.0")))]⟩

/-- A documented function with parameters `x` and `z` carrying `exParamDec`. -/
def exParamFunc : GObj :=
  ⟨"g", ["pkg"], [exParamDec], ["x", "z"],
   some [.other "summary", .parameters [⟨"x", "old x."⟩, ⟨"z", "old z."⟩]], Option.none, []⟩

/-- The message composed for parameter `x` of `exParamFunc`. -/
def exParamMsg : String := "**Deprecated since 2.0**: use `y` instead.\n\n"

/-- A function whose matching decorator has an unresolvable `since` in
per-parameter form. -/
def exParamNoSinceObj : GObj :=
  ⟨"h", ["pkg"],
   [⟨"braian.utils.deprecated", .exprCall exCallee
      [.exprKeyword "params" (.exprList [.lit (some (.str "x"))]),
       .exprKeyword "since" (.exprName "VERSION")]⟩],
   ["x"], some [.parameters [⟨"x", "old x."⟩]], Option.none, []⟩

/-! ## General lemmas about the embedding -/

@[simp] theorem exceptBind_ok (x : α) (f : α → Except PyErr β) :
    (Except.ok x >>= f : Except PyErr β) = f x := rfl

@[simp] theorem exceptBind_error (e : PyErr) (f : α → Except PyErr β) :
    ((Except.error e : Except PyErr α) >>= f) = .error e := rfl

theorem litEval_error_eq : ∀ (v : GExpr) (e : PyErr), litEval v = .error e → e = .valueError
  | .lit (some _), _, h => Except.noConfusion h
  | .lit Option.none, _, h => by injection h with h2; exact h2.symm
  | .exprName _, _, h => by injection h with h2; exact h2.symm
  | .exprList _, _, h => by injection h with h2; exact h2.symm
  | .exprDict _ _, _, h => by injection h with h2; exact h2.symm
  | .exprCall _ _, _, h => by injection h with h2; exact h2.symm
  | .exprKeyword _ _, _, h => by injection h with h2; exact h2.symm

theorem mapExcept_error_eq (f : α → Except PyErr β)
    (hf : ∀ x e, f x = .error e → e = .valueError) :
    ∀ (l : List α) (e : PyErr), mapExcept f l = .error e → e = .valueError := by
  intro l
  induction l with
  | nil => intro e h; exact Except.noConfusion h
  | cons x xs ih =>
    intro e h
    rw [mapExcept] at h
    cases hx : f x with
    | error e2 =>
      rw [hx, exceptBind_error] at h
      injection h with h2
      rw [← h2]
      exact hf x e2 hx
    | ok y =>
      rw [hx, exceptBind_ok] at h
      cases hxs : mapExcept f xs with
      | error e3 =>
        rw [hxs, exceptBind_error] at h
        injection h with h2
        rw [← h2]
        exact ih e3 hxs
      | ok ys =>
        rw [hxs, exceptBind_ok] at h
        exact Except.noConfusion h

theorem mapExcept_lits (vs : List PyVal) :
    mapExcept litEval (vs.map fun v => GExpr.lit (some v)) = .ok vs := by
  induction vs with
  | nil => rfl
  | cons v vs ih =>
    rw [List.map_cons, mapExcept, show litEval (GExpr.lit (some v)) = .ok v from rfl,
      exceptBind_ok, ih, exceptBind_ok]

theorem depLoop_skip (obj : GObj) (l₁ l₂ : List Decorator)
    (h : ∀ d ∈ l₁, decMatches d = false) :
    depLoop obj (l₁ ++ l₂) = depLoop obj l₂ := by
  induction l₁ with
  | nil => rfl
  | cons d ds ih =>
    have hd : decMatches d = false := h d (by simp)
    simp only [List.cons_append, depLoop, hd, Bool.false_eq_true, if_false]
    exact ih fun x hx => h x (by simp [hx])

theorem braianLoop_skip (nm : String) (l₁ l₂ : List Decorator) (st : BState)
    (h : ∀ d ∈ l₁, decMatches d = false) :
    braianLoop nm (l₁ ++ l₂) st = braianLoop nm l₂ st := by
  induction l₁ with
  | nil => rfl
  | cons d ds ih =>
    have hd : decMatches d = false := h d (by simp)
    simp only [List.cons_append, braianLoop, hd, Bool.false_eq_true, if_false]
    exact ih fun x hx => h x (by simp [hx])

theorem depLoop_nomatch (obj : GObj) (l : List Decorator)
    (h : ∀ d ∈ l, decMatches d = false) :
    depLoop obj l = .ok (Option.none, []) := by
  have := depLoop_skip obj l [] h
  simpa using this

theorem braianLoop_nomatch (nm : String) (l : List Decorator) (st : BState)
    (h : ∀ d ∈ l, decMatches d = false) :
    braianLoop nm l st = .ok (braianFinal st, []) := by
  have := braianLoop_skip nm l [] st h
  simpa [braianLoop] using this

/-! ## Claim theorems -/

/-- Claim C4 (code bug): the claim states that the per-object hooks raise no
exception on documented inputs, but `first_arg = decorator.value.arguments[0]`
is evaluated before the `try` whose `except (ValueError, IndexError)` was
clearly meant to guard it, so a recognized decorator called with zero
arguments makes `on_class_instance` raise `IndexError`. -/
theorem C4_zero_arg_raises :
    on_class_instance (mkExtension "deprecated" (some "Deprecated") (some "deprecated")) exZeroArgObj =
      .error .indexError := rfl

/-- Claim C5: an object none of whose decorators has a recognized callable
path is left exactly unchanged by both lifecycle hooks. -/
theorem C5_unrecognized_identity (cfg : ExtConfig) (obj : GObj)
    (h : ∀ d ∈ obj.decorators, _decorators.contains d.callable_path = false) :
    on_class_instance cfg obj = .ok obj ∧ on_function_instance cfg obj = .ok obj := by
  have hm : ∀ d ∈ obj.decorators, decMatches d = false := by
    intro d hd
    show (_decorators.contains d.callable_path && d.value.isCall) = false
    rw [h d hd]
    rfl
  have h1 : _deprecated obj = .ok (Option.none, []) := depLoop_nomatch obj obj.decorators hm
  have h2 : _braian_deprecate_params obj = .ok ([], []) :=
    braianLoop_nomatch obj.name obj.decorators ⟨Option.none, [], []⟩ hm
  have hw : processWholeObject cfg obj = .ok obj := by
    unfold processWholeObject
    rw [h1, exceptBind_ok]
  refine ⟨hw, ?_⟩
  unfold on_function_instance
  rw [h2, exceptBind_ok]
  exact hw

/-- Witness for C5 at a concrete object with one unrecognized decorator. -/
theorem C5_witness :
    on_class_instance (mkExtension "deprecated" (some "Deprecated") (some "deprecated")) exPlainObj =
        .ok exPlainObj ∧
      on_function_instance (mkExtension "deprecated" (some "Deprecated") (some "deprecated")) exPlainObj =
        .ok exPlainObj :=
  C5_unrecognized_identity _ _ (by decide)

/-- Counterexample to claim C1: the code does not stop at the first
divergence.  For ancestry `["a","b","c"]` and alternative `"a.x.c.d"` the
positions 0 and 2 agree, so the code strips two leading segments and displays
`c.d`, while the prefix-until-first-divergence of the claim is just `a`, which
would display `x.c.d`. -/
theorem C1_counterexample :
    _remove_common_anchestors (.str "a.x.c.d") ["a", "b", "c"] = .ok "c.d" ∧
      specDisplayText "a.x.c.d" ["a", "b", "c"] = "x.c.d" ∧
      ("c.d" : String) ≠ "x.c.d" :=
  ⟨rfl, rfl, by decide⟩

/-- Claim C1 as amended: the display text of an alternative link is the dotted
path with its first k segments removed, where k counts the positions at which
the path and the ancestry carry equal segments (over all zipped positions, not
up to the first divergence), and the link target is the full dotted path; the
example of the spec (`["pkg","sub","Obj"]` with `"pkg.sub.other"` displaying
`other` and targeting `pkg.sub.other`) holds end to end. -/
theorem C1_amended_rendering :
    (∀ (s : String) (anc : List String),
        renderAlternative anc (.str s) =
          .ok ("[`" ++ joinSep "." ((splitDots s).drop
              (((splitDots s).zip anc).countP fun p => p.1 == p.2)) ++ "`][" ++ s ++ "]")) ∧
      _deprecated exAltObj =
        .ok (some (.str "`Obj` is deprecated since 1.0 and may be removed in future versions.\n\n**Alternative**: [`other`][pkg.sub.other]"), []) := by
  refine ⟨?_, rfl⟩
  intro s anc
  rw [List.countP_eq_length_filter]
  rfl

/-- Counterexample to claim C3: the whole-object structured-keyword
extraction accepts `alternatives` only as a literal list; the dict-literal
form is not normalized but raises `AttributeError` (`arg.value.elements` does
not exist on an `ExprDict`). -/
theorem C3_counterexample :
    _deprecated exWholeListObj = .ok (some (.str exWholeListText), []) ∧
      _deprecated exWholeDictObj = .error .attributeError ∧
      (Except.error PyErr.attributeError : Except PyErr (Option PyVal × List String)) ≠
        .ok (some (.str exWholeListText), []) :=
  ⟨rfl, rfl, fun h => Except.noConfusion h⟩

/-- Claim C3 as amended: in the whole-object structured-keyword extraction
`alternatives` is accepted only as a literal list of strings, and both dict
forms raise `AttributeError` there; the dict-literal form and the `dict(...)`
constructor form are accepted — and normalized into the same mapping — only in
the per-parameter extraction. -/
theorem C3_amended_alternatives_forms :
    (∀ (st : DArgs) (vs : List PyVal),
        depArgStep st (.exprKeyword "alternatives" (.exprList (vs.map fun v => .lit (some v)))) =
          .ok { st with alternatives := some vs }) ∧
      (∀ (st : DArgs) (ks vls : List GExpr),
        depArgStep st (.exprKeyword "alternatives" (.exprDict ks vls)) = .error .attributeError) ∧
      (∀ (st : DArgs) (f : GExpr) (args : List GExpr),
        depArgStep st (.exprKeyword "alternatives" (.exprCall f args)) = .error .attributeError) ∧
      (∀ (st : BState) (entries : List (String × PyVal)),
        paramArgStep st (.exprKeyword "alternatives"
            (.exprCall (.exprName "dict") (entries.map fun e => .exprKeyword e.1 (.lit (some e.2))))) =
          .ok { st with alternatives := pyDictOfList (entries.map fun e => (.str e.1, e.2)) } ∧
        paramArgStep st (.exprKeyword "alternatives"
            (.exprDict (entries.map fun e => .lit (some (.str e.1))) (entries.map fun e => .lit (some e.2)))) =
          .ok { st with alternatives := pyDictOfList (entries.map fun e => (.str e.1, e.2)) }) := by
  refine ⟨?_, ?_, ?_, ?_⟩
  · intro st vs
    show catchValueError st (depArgBody st "alternatives" (.exprList (vs.map fun v => .lit (some v)))) = _
    rw [show depArgBody st "alternatives" (.exprList (vs.map fun v => .lit (some v))) =
        (do
          let xs ← mapExcept litEval (vs.map fun v => GExpr.lit (some v))
          Except.ok { st with alternatives := some xs }) from rfl]
    rw [mapExcept_lits, exceptBind_ok]
    rfl
  · intro st ks vls
    rfl
  · intro st f args
    rfl
  · intro st entries
    constructor
    · show catchValueError st _ = _
      rw [show paramArgBody st "alternatives"
          (.exprCall (.exprName "dict") (entries.map fun e => .exprKeyword e.1 (.lit (some e.2)))) =
          (do
            let ps ← mapExcept
              (fun kv => do
                let x ← litEval kv.2
                pure (PyVal.str kv.1, x))
              ((entries.map fun e => GExpr.exprKeyword e.1 (.lit (some e.2))).filterMap keywordOf)
            pure { st with alternatives := pyDictOfList ps }) from rfl]
      rw [show (entries.map fun e => GExpr.exprKeyword e.1 (.lit (some e.2))).filterMap keywordOf =
          entries.map fun e => (e.1, GExpr.lit (some e.2)) from by
        induction entries with
        | nil => rfl
        | cons x xs ih => simp [keywordOf, ih]]
      rw [show mapExcept
          (fun kv => do
            let x ← litEval kv.2
            pure (PyVal.str kv.1, x))
          (entries.map fun e => (e.1, GExpr.lit (some e.2))) =
          .ok (entries.map fun e => (PyVal.str e.1, e.2)) from by
        induction entries with
        | nil => rfl
        | cons x xs ih =>
          rw [List.map_cons, mapExcept, show litEval (GExpr.lit (some x.2)) = .ok x.2 from rfl]
          rw [show ((do
              let y ← Except.ok x.2
              pure (PyVal.str x.1, y)) : Except PyErr (PyVal × PyVal)) = .ok (PyVal.str x.1, x.2) from rfl,
            exceptBind_ok, ih, exceptBind_ok]
          rfl]
      rfl
    · show catchValueError st _ = _
      rw [show paramArgBody st "alternatives"
          (.exprDict (entries.map fun e => .lit (some (.str e.1))) (entries.map fun e => .lit (some e.2))) =
          (do
            let kvals ← mapExcept litEval (entries.map fun e => GExpr.lit (some (.str e.1)))
            let vvals ← mapExcept litEval (entries.map fun e => GExpr.lit (some e.2))
            pure { st with alternatives := pyDictOfList (kvals.zip vvals) }) from rfl]
      rw [show (entries.map fun e => GExpr.lit (some (.str e.1))) =
          ((entries.map fun e => PyVal.str e.1).map fun v => GExpr.lit (some v)) from by
        rw [List.map_map]
        rfl]
      rw [mapExcept_lits, exceptBind_ok]
      rw [show (entries.map fun e => GExpr.lit (some e.2)) =
          ((entries.map fun e => e.2).map fun v => GExpr.lit (some v)) from by
        rw [List.map_map]
        rfl]
      rw [mapExcept_lits, exceptBind_ok]
      rw [show (entries.map fun e => PyVal.str e.1).zip (entries.map fun e => e.2) =
          entries.map fun e => (PyVal.str e.1, e.2) from List.zip_map' _ _ _]
      rfl

/-- A decorator whose value is not a call expression never matches. -/
theorem decMatches_call (d : Decorator) (f : GExpr) (args : List GExpr)
    (hd : _decorators.contains d.callable_path = true) (hv : d.value = .exprCall f args) :
    decMatches d = true := by
  show (_decorators.contains d.callable_path && d.value.isCall) = true
  rw [hd, hv]
  rfl

/-- Unfolding `depLoop` at a matching head decorator called with no
arguments: `decorator.value.arguments[0]` raises `IndexError` outside the
`try`. -/
theorem depLoop_match_nil (obj : GObj) (path : String) (ds : List Decorator) (f : GExpr)
    (hd : _decorators.contains path = true) :
    depLoop obj (⟨path, .exprCall f []⟩ :: ds) = .error .indexError := by
  have hm : decMatches ⟨path, .exprCall f []⟩ = true := decMatches_call _ f [] hd rfl
  simp only [depLoop, hm, if_true]

/-- Unfolding `depLoop` at a matching head decorator whose first argument is a
literal: the PEP-702 short form returns it as the whole message. -/
theorem depLoop_match_lit (obj : GObj) (path : String) (ds : List Decorator) (f a : GExpr)
    (tl : List GExpr) (v : PyVal)
    (hd : _decorators.contains path = true) (hl : litEval a = .ok v) :
    depLoop obj (⟨path, .exprCall f (a :: tl)⟩ :: ds) = .ok (some v, []) := by
  have hm : decMatches ⟨path, .exprCall f (a :: tl)⟩ = true := decMatches_call _ f (a :: tl) hd rfl
  simp only [depLoop, hm, if_true, hl]

/-- Unfolding `depLoop` at a matching head decorator whose first argument is
not a literal: the structured-keyword form is tried. -/
theorem depLoop_match_structured (obj : GObj) (path : String) (ds : List Decorator) (f a : GExpr)
    (tl : List GExpr)
    (hd : _decorators.contains path = true) (hl : litEval a = .error .valueError) :
    depLoop obj (⟨path, .exprCall f (a :: tl)⟩ :: ds) = depBraianWrap obj (.exprCall f (a :: tl)) := by
  have hm : decMatches ⟨path, .exprCall f (a :: tl)⟩ = true := decMatches_call _ f (a :: tl) hd rfl
  simp only [depLoop, hm, if_true, hl]

/-- Unfolding `braianLoop` at a matching head decorator. -/
theorem braianLoop_match (nm : String) (d : Decorator) (ds : List Decorator) (st : BState)
    (hm : decMatches d = true) :
    braianLoop nm (d :: ds) st =
      (do
        let st2 ← processCallArgsP st d.value
        if st2.since.isNone then
          .ok ([], [noSinceMsg nm])
        else
          braianLoop nm ds st2) := by
  simp only [braianLoop, hm, if_true]

/-- `_deprecated_braian` ignores the decorator list of its object. -/
theorem depBraianWrap_decorators (obj : GObj) (l₁ l₂ : List Decorator) (c : GExpr) :
    depBraianWrap { obj with decorators := l₁ } c = depBraianWrap { obj with decorators := l₂ } c := rfl

/-- Counterexample to claim C2: in the per-parameter extraction the arguments
of a second matching decorator are not ignored — they overwrite the first
ones.  With a first decorator `since="1.0", params=["x"]` and a second
`since="2.0", params=["y"]`, the extracted dict comes from the second. -/
theorem C2_counterexample :
    _braian_deprecate_params exTwoDecObj = .ok ([(.str "y", "**Deprecated since 2.0**\n\n")], []) ∧
      _braian_deprecate_params exOneDecObj = .ok ([(.str "x", "**Deprecated since 1.0**\n\n")], []) ∧
      _braian_deprecate_params exTwoDecObj ≠ _braian_deprecate_params exOneDecObj := by
  refine ⟨rfl, rfl, ?_⟩
  intro h
  rw [show _braian_deprecate_params exTwoDecObj =
      .ok ([(.str "y", "**Deprecated since 2.0**\n\n")], []) from rfl,
    show _braian_deprecate_params exOneDecObj =
      .ok ([(.str "x", "**Deprecated since 1.0**\n\n")], []) from rfl] at h
  injection h with h2
  injection h2 with h3 h4
  injection h3 with h5 h6
  injection h5 with h7 h8
  injection h7 with h9
  exact absurd h9 (by decide)

/-- Claim C2 as amended: in the whole-object extraction only the first
matching decorator contributes (any decorators after it are ignored), while in
the per-parameter extraction every matching decorator is processed in order —
the keyword values of a later matching decorator overwrite the earlier state,
with the missing-`since` check applied after each matching decorator. -/
theorem C2_amended_first_match :
    (∀ (obj : GObj) (ds₁ ds₂ : List Decorator) (d : Decorator),
        (∀ d2 ∈ ds₁, decMatches d2 = false) →
        decMatches d = true →
        _deprecated { obj with decorators := ds₁ ++ d :: ds₂ } =
          _deprecated { obj with decorators := [d] }) ∧
      (∀ (obj : GObj) (dA dB : Decorator),
        decMatches dA = true → decMatches dB = true →
        _braian_deprecate_params { obj with decorators := [dA, dB] } =
          (do
            let st1 ← processCallArgsP ⟨Option.none, [], []⟩ dA.value
            if st1.since.isNone then .ok ([], [noSinceMsg obj.name])
            else do
              let st2 ← processCallArgsP st1 dB.value
              if st2.since.isNone then .ok ([], [noSinceMsg obj.name])
              else .ok (braianFinal st2, []))) := by
  constructor
  · intro obj ds₁ ds₂ d h1 hd
    obtain ⟨dpath, dval⟩ := d
    cases dval with
    | exprCall f args =>
      have hp : _decorators.contains dpath = true := by
        cases hpp : _decorators.contains dpath
        · have h2 : (_decorators.contains dpath && GExpr.isCall (.exprCall f args)) = true := hd
          rw [hpp, Bool.false_and] at h2
          exact Bool.noConfusion h2
        · rfl
      rw [show _deprecated { obj with decorators := ds₁ ++ ⟨dpath, .exprCall f args⟩ :: ds₂ } =
          depLoop { obj with decorators := ds₁ ++ ⟨dpath, .exprCall f args⟩ :: ds₂ }
            (ds₁ ++ ⟨dpath, .exprCall f args⟩ :: ds₂) from rfl,
        depLoop_skip _ ds₁ _ h1,
        show _deprecated { obj with decorators := [⟨dpath, .exprCall f args⟩] } =
          depLoop { obj with decorators := [⟨dpath, .exprCall f args⟩] }
            [⟨dpath, .exprCall f args⟩] from rfl]
      cases args with
      | nil => rw [depLoop_match_nil _ dpath ds₂ f hp, depLoop_match_nil _ dpath [] f hp]
      | cons a tl =>
        cases hl : litEval a with
        | ok v =>
          rw [depLoop_match_lit _ dpath ds₂ f a tl v hp hl, depLoop_match_lit _ dpath [] f a tl v hp hl]
        | error e =>
          have he : e = .valueError := litEval_error_eq a e hl
          subst he
          rw [depLoop_match_structured _ dpath ds₂ f a tl hp hl,
            depLoop_match_structured _ dpath [] f a tl hp hl]
          exact depBraianWrap_decorators obj _ _ _
    | lit o => simp [decMatches, GExpr.isCall] at hd
    | exprName n => simp [decMatches, GExpr.isCall] at hd
    | exprList es => simp [decMatches, GExpr.isCall] at hd
    | exprDict ks vs => simp [decMatches, GExpr.isCall] at hd
    | exprKeyword n v => simp [decMatches, GExpr.isCall] at hd
  · intro obj dA dB hA hB
    rw [show _braian_deprecate_params { obj with decorators := [dA, dB] } =
        braianLoop obj.name [dA, dB] ⟨Option.none, [], []⟩ from rfl,
      braianLoop_match obj.name dA [dB] _ hA]
    cases hst : processCallArgsP ⟨Option.none, [], []⟩ dA.value with
    | error e => rfl
    | ok st1 =>
      rw [exceptBind_ok, exceptBind_ok]
      by_cases hs : st1.since.isNone
      · rw [if_pos hs, if_pos hs]
      · rw [if_neg hs, if_neg hs, braianLoop_match obj.name dB [] st1 hB]
        cases hst2 : processCallArgsP st1 dB.value with
        | error e => rfl
        | ok st2 =>
          rw [exceptBind_ok, exceptBind_ok]
          by_cases hs2 : st2.since.isNone
          · rw [if_pos hs2, if_pos hs2]
          · rw [if_neg hs2, if_neg hs2]
            rfl

/-- Witness for C2 as amended, at concrete decorators. -/
theorem C2_witness :
    _deprecated { exTwoDecObj with decorators := [⟨"functools.cache", .exprCall exCallee []⟩, exDecParamsX, exDecParamsY] } =
      _deprecated { exTwoDecObj with decorators := [exDecParamsX] } :=
  C2_amended_first_match.1 exTwoDecObj [⟨"functools.cache", .exprCall exCallee []⟩] [exDecParamsY]
    exDecParamsX (by decide) (by decide)

/-- Claim C7: a literal-string first positional argument of a recognized
decorator is the entire message — extraction returns it immediately, whatever
keyword arguments follow — and after injection the admonition body is exactly
that literal when a title is configured, while with no configured title the
admonition title is exactly that literal and the body is empty. -/
theorem C7_literal_short_form (cfg : ExtConfig) (obj : GObj) (ds₁ ds₂ : List Decorator)
    (path : String) (f : GExpr) (s : String) (rest : List GExpr)
    (hdec : obj.decorators = ds₁ ++ ⟨path, .exprCall f (.lit (some (.str s)) :: rest)⟩ :: ds₂)
    (h1 : ∀ d2 ∈ ds₁, decMatches d2 = false)
    (hp : _decorators.contains path = true) :
    _deprecated obj = .ok (some (.str s), []) ∧
      (s ≠ "" →
        on_class_instance cfg obj =
          .ok { obj with
                deprecated := some (.str s),
                docstring := some (.admonition cfg.kind
                  (if cfg.title = "" then .str s else .str cfg.title)
                  (if cfg.title = "" then .str "" else .str s) :: obj.docstring.getD []),
                labels := labelApply cfg obj.labels }) := by
  have hdep : _deprecated obj = .ok (some (.str s), []) := by
    rw [show _deprecated obj = depLoop obj obj.decorators from rfl, hdec,
      depLoop_skip _ ds₁ _ h1,
      depLoop_match_lit _ path ds₂ f (.lit (some (.str s))) rest (.str s) hp rfl]
  refine ⟨hdep, fun hs => ?_⟩
  show processWholeObject cfg obj = _
  unfold processWholeObject
  rw [hdep, exceptBind_ok]
  have ht : (PyVal.str s).truthy = true := by
    show (!(s == "")) = true
    simp [hs]
  by_cases htc : cfg.title = "" <;> simp [ht, _insert_message, htc]

/-- Witness for C7 at a concrete class, with both title configurations. -/
theorem C7_witness :
    _deprecated exShortFormObj = .ok (some (.str "use other"), []) ∧
      on_class_instance (mkExtension "danger" (some "Deprecated") (some "dep")) exShortFormObj =
        .ok { exShortFormObj with
              deprecated := some (.str "use other"),
              docstring := some [.admonition "danger" (.str "Deprecated") (.str "use other"), .other "summary"],
              labels := ["dep"] } ∧
      on_class_instance (mkExtension "danger" Option.none (some "dep")) exShortFormObj =
        .ok { exShortFormObj with
              deprecated := some (.str "use other"),
              docstring := some [.admonition "danger" (.str "use other") (.str ""), .other "summary"],
              labels := ["dep"] } :=
  ⟨(C7_literal_short_form (mkExtension "danger" (some "Deprecated") (some "dep")) exShortFormObj
      [] [] "warnings.deprecated" exCallee "use other" [] rfl (by decide) (by decide)).1,
   (C7_literal_short_form (mkExtension "danger" (some "Deprecated") (some "dep")) exShortFormObj
      [] [] "warnings.deprecated" exCallee "use other" [] rfl (by decide) (by decide)).2 (by decide),
   (C7_literal_short_form (mkExtension "danger" Option.none (some "dep")) exShortFormObj
      [] [] "warnings.deprecated" exCallee "use other" [] rfl (by decide) (by decide)).2 (by decide)⟩

/-- One safe argument step of `_deprecated_braian` keeps `since` unresolved
and raises nothing. -/
theorem depArgStep_safe (st : DArgs) (e : GExpr)
    (hs : st.since = Option.none) (he : safeNoSinceW e = true) :
    ∃ st2, depArgStep st e = .ok st2 ∧ st2.since = Option.none := by
  cases e with
  | exprKeyword n v =>
    have hsw : ((if n = "since" then sinceUnresolvedB v else true) &&
        (if n = "alternatives" then v.isList else true)) = true := he
    show ∃ st2, catchValueError st (depArgBody st n v) = .ok st2 ∧ st2.since = Option.none
    by_cases hn1 : n = "message"
    · subst hn1
      cases hl : litEval v with
      | ok val =>
        refine ⟨{ st with message := pyNoneToOpt val }, ?_, hs⟩
        simp only [depArgBody, reduceIte, hl]
        rfl
      | error e2 =>
        have he2 : e2 = .valueError := litEval_error_eq v e2 hl
        subst he2
        refine ⟨st, ?_, hs⟩
        simp only [depArgBody, reduceIte, hl]
        rfl
    · by_cases hn2 : n = "since"
      · subst hn2
        simp only [reduceIte, Bool.and_true] at hsw
        cases hl : litEval v with
        | ok val =>
          rw [sinceUnresolvedB, hl] at hsw
          cases val with
          | none =>
            refine ⟨{ st with since := Option.none }, ?_, rfl⟩
            simp only [depArgBody, reduceIte, hl]
            rfl
          | str s2 => exact Bool.noConfusion hsw
          | int n2 => exact Bool.noConfusion hsw
          | list l2 => exact Bool.noConfusion hsw
        | error e2 =>
          have he2 : e2 = .valueError := litEval_error_eq v e2 hl
          subst he2
          refine ⟨st, ?_, hs⟩
          simp only [depArgBody, reduceIte, hl]
          rfl
      · by_cases hn3 : n = "alternatives"
        · subst hn3
          simp only [reduceIte, Bool.true_and] at hsw
          cases v with
          | exprList es =>
            cases hm : mapExcept litEval es with
            | ok vs =>
              refine ⟨{ st with alternatives := some vs }, ?_, hs⟩
              simp only [depArgBody, reduceIte,
                show GExpr.elementsAttr (.exprList es) = .ok es from rfl, exceptBind_ok, hm]
              rfl
            | error e2 =>
              have he2 : e2 = .valueError :=
                mapExcept_error_eq litEval (fun x e3 h3 => litEval_error_eq x e3 h3) es e2 hm
              subst he2
              refine ⟨st, ?_, hs⟩
              simp only [depArgBody, reduceIte,
                show GExpr.elementsAttr (.exprList es) = .ok es from rfl, exceptBind_ok, hm]
              rfl
          | lit o => exact Bool.noConfusion hsw
          | exprName nm => exact Bool.noConfusion hsw
          | exprDict ks vls => exact Bool.noConfusion hsw
          | exprCall fx ax => exact Bool.noConfusion hsw
          | exprKeyword nk vk => exact Bool.noConfusion hsw
        · refine ⟨st, ?_, hs⟩
          simp only [depArgBody, if_neg hn1, if_neg hn2, if_neg hn3]
          rfl
  | lit o => exact ⟨st, rfl, hs⟩
  | exprName nm => exact ⟨st, rfl, hs⟩
  | exprList es => exact ⟨st, rfl, hs⟩
  | exprDict ks vls => exact ⟨st, rfl, hs⟩
  | exprCall fx ax => exact ⟨st, rfl, hs⟩

/-- Folding safe arguments in `_deprecated_braian` keeps `since` unresolved. -/
theorem depFold_safe (l : List GExpr) :
    ∀ (st : DArgs), st.since = Option.none → (∀ e ∈ l, safeNoSinceW e = true) →
      ∃ st2, l.foldlM depArgStep st = .ok st2 ∧ st2.since = Option.none := by
  induction l with
  | nil => intro st hs _; exact ⟨st, rfl, hs⟩
  | cons e es ih =>
    intro st hs hall
    obtain ⟨st2, h1, h2⟩ := depArgStep_safe st e hs (hall e (by simp))
    obtain ⟨st3, h3, h4⟩ := ih st2 h2 (fun x hx => hall x (by simp [hx]))
    refine ⟨st3, ?_, h4⟩
    rw [List.foldlM_cons, h1, exceptBind_ok, h3]

/-- Claim C6: a recognized decorator in structured-keyword form with no
resolvable static `since` (and no literal first positional argument) makes the
whole-object extraction return no metadata while logging the debug message,
and the class hook leaves the object exactly unchanged. -/
theorem C6_missing_since_untouched (cfg : ExtConfig) (obj : GObj) (ds₁ ds₂ : List Decorator)
    (path : String) (f a : GExpr) (rest : List GExpr)
    (hdec : obj.decorators = ds₁ ++ ⟨path, .exprCall f (a :: rest)⟩ :: ds₂)
    (h1 : ∀ d2 ∈ ds₁, decMatches d2 = false)
    (hp : _decorators.contains path = true)
    (hl : litEval a = .error .valueError)
    (hsafe : ∀ e ∈ f :: a :: rest, safeNoSinceW e = true) :
    _deprecated obj = .ok (Option.none, [noSinceMsg obj.name]) ∧
      on_class_instance cfg obj = .ok obj := by
  obtain ⟨st2, hf, hsn⟩ := depFold_safe (f :: a :: rest) ⟨Option.none, Option.none, Option.none⟩ rfl hsafe
  have hb : _deprecated_braian obj (.exprCall f (a :: rest)) = .ok (Option.none, [noSinceMsg obj.name]) := by
    have hit : GExpr.iterate (.exprCall f (a :: rest)) = f :: a :: rest := rfl
    simp only [_deprecated_braian, hit, hf, exceptBind_ok, hsn]
  have hdep : _deprecated obj = .ok (Option.none, [noSinceMsg obj.name]) := by
    rw [show _deprecated obj = depLoop obj obj.decorators from rfl, hdec,
      depLoop_skip _ ds₁ _ h1,
      depLoop_match_structured _ path ds₂ f a rest hp hl]
    unfold depBraianWrap
    rw [hb]
  refine ⟨hdep, ?_⟩
  show processWholeObject cfg obj = .ok obj
  unfold processWholeObject
  rw [hdep, exceptBind_ok]

/-- Witness for C6 at a concrete class whose `since` keyword is a name. -/
theorem C6_witness :
    _deprecated exNoSinceObj = .ok (Option.none, [noSinceMsg "C"]) ∧
      on_class_instance (mkExtension "deprecated" (some "Deprecated") (some "deprecated")) exNoSinceObj =
        .ok exNoSinceObj :=
  C6_missing_since_untouched (mkExtension "deprecated" (some "Deprecated") (some "deprecated"))
    exNoSinceObj [] [] "typing_extensions.deprecated" exCallee
    (.exprKeyword "message" (.lit (some (.str "m"))))
    [.exprKeyword "since" (.exprName "VERSION")]
    rfl (by decide) (by decide) rfl (by decide)

/-- One safe argument step of `_braian_deprecate_params` keeps `since`
unresolved and raises nothing. -/
theorem paramArgStep_safe (st : BState) (e : GExpr)
    (hs : st.since = Option.none) (he : safeNoSinceP e = true) :
    ∃ st2, paramArgStep st e = .ok st2 ∧ st2.since = Option.none := by
  have hpair : ∀ (kv : String × GExpr) (e2 : PyErr),
      ((do
        let x ← litEval kv.2
        pure (PyVal.str kv.1, x)) : Except PyErr (PyVal × PyVal)) = .error e2 → e2 = .valueError := by
    intro kv e2 h
    cases hl : litEval kv.2 with
    | ok x => rw [hl, exceptBind_ok] at h; exact Except.noConfusion h
    | error e3 =>
      rw [hl, exceptBind_error] at h
      injection h with h2
      rw [← h2]
      exact litEval_error_eq kv.2 e3 hl
  cases e with
  | exprKeyword n v =>
    have hsw : ((if n = "since" then sinceUnresolvedB v else true) &&
        (if n = "params" then v.isList else true) &&
        (if n = "alternatives" then altSafeP v else true)) = true := he
    show ∃ st2, catchValueError st (paramArgBody st n v) = .ok st2 ∧ st2.since = Option.none
    by_cases hn1 : n = "since"
    · subst hn1
      simp only [reduceIte, Bool.and_true, Bool.true_and] at hsw
      cases hl : litEval v with
      | ok val =>
        rw [sinceUnresolvedB, hl] at hsw
        cases val with
        | none =>
          refine ⟨{ st with since := Option.none }, ?_, rfl⟩
          simp only [paramArgBody, reduceIte, hl]
          rfl
        | str s2 => exact Bool.noConfusion hsw
        | int n2 => exact Bool.noConfusion hsw
        | list l2 => exact Bool.noConfusion hsw
      | error e2 =>
        have he2 : e2 = .valueError := litEval_error_eq v e2 hl
        subst he2
        refine ⟨st, ?_, hs⟩
        simp only [paramArgBody, reduceIte, hl]
        rfl
    · by_cases hn2 : n = "params"
      · subst hn2
        simp only [reduceIte, Bool.and_true, Bool.true_and] at hsw
        cases v with
        | exprList es =>
          cases hm : mapExcept litEval es with
          | ok vs =>
            refine ⟨{ st with params := vs }, ?_, hs⟩
            simp only [paramArgBody, reduceIte,
              show GExpr.elementsAttr (.exprList es) = .ok es from rfl, exceptBind_ok, hm]
            rfl
          | error e2 =>
            have he2 : e2 = .valueError :=
              mapExcept_error_eq litEval (fun x e3 h3 => litEval_error_eq x e3 h3) es e2 hm
            subst he2
            refine ⟨st, ?_, hs⟩
            simp only [paramArgBody, reduceIte,
              show GExpr.elementsAttr (.exprList es) = .ok es from rfl, exceptBind_ok, hm]
            rfl
        | lit o => exact Bool.noConfusion hsw
        | exprName nm => exact Bool.noConfusion hsw
        | exprDict ks vls => exact Bool.noConfusion hsw
        | exprCall fx ax => exact Bool.noConfusion hsw
        | exprKeyword nk vk => exact Bool.noConfusion hsw
      · by_cases hn3 : n = "alternatives"
        · subst hn3
          simp only [reduceIte, Bool.and_true, Bool.true_and] at hsw
          cases v with
          | exprCall fx ax =>
            rw [altSafeP] at hsw
            cases hna : fx.nameAttr with
            | error e2 => rw [hna] at hsw; exact Bool.noConfusion hsw
            | ok nm =>
              by_cases hdict : nm = "dict"
              · subst hdict
                cases hm : mapExcept
                    (fun kv => do
                      let x ← litEval kv.2
                      pure (PyVal.str kv.1, x))
                    (ax.filterMap keywordOf) with
                | ok ps =>
                  refine ⟨{ st with alternatives := pyDictOfList ps }, ?_, hs⟩
                  simp only [paramArgBody, reduceIte, hna, exceptBind_ok, hm]
                  rfl
                | error e2 =>
                  have he2 : e2 = .valueError :=
                    mapExcept_error_eq _ hpair (ax.filterMap keywordOf) e2 hm
                  subst he2
                  refine ⟨st, ?_, hs⟩
                  simp only [paramArgBody, reduceIte, hna, exceptBind_ok, hm]
                  rfl
              · refine ⟨st, ?_, hs⟩
                simp only [paramArgBody, reduceIte, hna, exceptBind_ok, if_neg hdict]
                rfl
          | exprDict ks vls =>
            cases hmk : mapExcept litEval ks with
            | error e2 =>
              have he2 : e2 = .valueError :=
                mapExcept_error_eq litEval (fun x e3 h3 => litEval_error_eq x e3 h3) ks e2 hmk
              subst he2
              refine ⟨st, ?_, hs⟩
              simp only [paramArgBody, reduceIte, hmk]
              rfl
            | ok kvals =>
              cases hmv : mapExcept litEval vls with
              | error e2 =>
                have he2 : e2 = .valueError :=
                  mapExcept_error_eq litEval (fun x e3 h3 => litEval_error_eq x e3 h3) vls e2 hmv
                subst he2
                refine ⟨st, ?_, hs⟩
                simp only [paramArgBody, reduceIte, hmk, exceptBind_ok, hmv]
                rfl
              | ok vvals =>
                refine ⟨{ st with alternatives := pyDictOfList (kvals.zip vvals) }, ?_, hs⟩
                simp only [paramArgBody, reduceIte, hmk, exceptBind_ok, hmv]
                rfl
          | lit o => exact ⟨st, rfl, hs⟩
          | exprName nm => exact ⟨st, rfl, hs⟩
          | exprList es => exact ⟨st, rfl, hs⟩
          | exprKeyword nk vk => exact ⟨st, rfl, hs⟩
        · refine ⟨st, ?_, hs⟩
          simp only [paramArgBody, if_neg hn1, if_neg hn2, if_neg hn3]
          rfl
  | lit o => exact ⟨st, rfl, hs⟩
  | exprName nm => exact ⟨st, rfl, hs⟩
  | exprList es => exact ⟨st, rfl, hs⟩
  | exprDict ks vls => exact ⟨st, rfl, hs⟩
  | exprCall fx ax => exact ⟨st, rfl, hs⟩

/-- Folding safe arguments in `_braian_deprecate_params` keeps `since`
unresolved. -/
theorem paramFold_safe (l : List GExpr) :
    ∀ (st : BState), st.since = Option.none → (∀ e ∈ l, safeNoSinceP e = true) →
      ∃ st2, l.foldlM paramArgStep st = .ok st2 ∧ st2.since = Option.none := by
  induction l with
  | nil => intro st hs _; exact ⟨st, rfl, hs⟩
  | cons e es ih =>
    intro st hs hall
    obtain ⟨st2, h1, h2⟩ := paramArgStep_safe st e hs (hall e (by simp))
    obtain ⟨st3, h3, h4⟩ := ih st2 h2 (fun x hx => hall x (by simp [hx]))
    refine ⟨st3, ?_, h4⟩
    rw [List.foldlM_cons, h1, exceptBind_ok, h3]

/-- Claim C9: when the per-parameter extraction cannot resolve `since` it
yields an empty dict and logs the debug message, and the function hook falls
through to the whole-object path; conversely, whenever the per-parameter
extraction produced metadata, the hook result is the per-parameter fold alone
— in particular it does not depend on the configuration, which only the
whole-object path reads. -/
theorem C9_param_fallback :
    (∀ (cfg : ExtConfig) (func : GObj) (ds₁ ds₂ : List Decorator) (path : String) (f : GExpr)
        (args : List GExpr),
        func.decorators = ds₁ ++ ⟨path, .exprCall f args⟩ :: ds₂ →
        (∀ d2 ∈ ds₁, decMatches d2 = false) →
        _decorators.contains path = true →
        (∀ e ∈ f :: args, safeNoSinceP e = true) →
        _braian_deprecate_params func = .ok ([], [noSinceMsg func.name]) ∧
          on_function_instance cfg func = processWholeObject cfg func) ∧
      (∀ (cfg cfg2 : ExtConfig) (func : GObj) (dp : List (PyVal × String)) (logs : List String),
        _braian_deprecate_params func = .ok (dp, logs) →
        dp ≠ [] →
        on_function_instance cfg func = .ok (func.parameters.foldl (paramStep dp) func) ∧
          on_function_instance cfg func = on_function_instance cfg2 func) := by
  constructor
  · intro cfg func ds₁ ds₂ path f args hdec h1 hp hsafe
    obtain ⟨st2, hf, hsn⟩ := paramFold_safe (f :: args) ⟨Option.none, [], []⟩ rfl hsafe
    have hm : decMatches ⟨path, .exprCall f args⟩ = true := decMatches_call _ f args hp rfl
    have hb : _braian_deprecate_params func = .ok ([], [noSinceMsg func.name]) := by
      rw [show _braian_deprecate_params func =
          braianLoop func.name func.decorators ⟨Option.none, [], []⟩ from rfl,
        hdec, braianLoop_skip func.name ds₁ _ _ h1,
        braianLoop_match func.name _ ds₂ _ hm]
      have hpc : processCallArgsP ⟨Option.none, [], []⟩ (GExpr.exprCall f args) = .ok st2 := hf
      rw [hpc, exceptBind_ok, hsn]
      rfl
    refine ⟨hb, ?_⟩
    unfold on_function_instance
    rw [hb, exceptBind_ok]
    rfl
  · intro cfg cfg2 func dp logs hbp hne
    have hie : dp.isEmpty = false := by
      cases dp with
      | nil => exact absurd rfl hne
      | cons a l => rfl
    have h3 : ∀ (c : ExtConfig),
        on_function_instance c func = .ok (func.parameters.foldl (paramStep dp) func) := by
      intro c
      unfold on_function_instance
      rw [hbp, exceptBind_ok]
      simp [hie]
    exact ⟨h3 cfg, by rw [h3 cfg, h3 cfg2]⟩

/-- Witness for C9: a concrete function whose decorator has `params` but a
name-valued `since` falls back, and the concrete per-parameter function of C8
takes the per-parameter branch under any configuration. -/
theorem C9_witness :
    (_braian_deprecate_params exParamNoSinceObj = .ok ([], [noSinceMsg "h"]) ∧
        on_function_instance (mkExtension "deprecated" (some "Deprecated") (some "deprecated"))
          exParamNoSinceObj =
          processWholeObject (mkExtension "deprecated" (some "Deprecated") (some "deprecated"))
            exParamNoSinceObj) ∧
      on_function_instance (mkExtension "deprecated" (some "Deprecated") (some "deprecated")) exParamFunc =
        on_function_instance (mkExtension "kind2" Option.none Option.none) exParamFunc :=
  ⟨C9_param_fallback.1 (mkExtension "deprecated" (some "Deprecated") (some "deprecated"))
      exParamNoSinceObj [] [] "braian.utils.deprecated" exCallee
      [.exprKeyword "params" (.exprList [.lit (some (.str "x"))]),
       .exprKeyword "since" (.exprName "VERSION")]
      rfl (by decide) (by decide) (by decide),
   (C9_param_fallback.2 (mkExtension "deprecated" (some "Deprecated") (some "deprecated"))
      (mkExtension "kind2" Option.none Option.none) exParamFunc
      [(.str "x", exParamMsg)] [] rfl (by
        intro h
        exact List.noConfusion h)).2⟩

@[simp] theorem PyVal.beq_str_str (a b : String) : (PyVal.str a == PyVal.str b) = (a == b) := rfl

/-- A non-keyword iterated element is skipped by `_braian_deprecate_params`. -/
theorem paramArgStep_nonkw (st : BState) (e : GExpr) (h : e.isKeyword = false) :
    paramArgStep st e = .ok st := by
  cases e with
  | exprKeyword n v => exact Bool.noConfusion h
  | lit o => rfl
  | exprName nm => rfl
  | exprList es => rfl
  | exprDict ks vls => rfl
  | exprCall fx ax => rfl

/-- Looking a parameter name up in a one-entry extracted dict. -/
theorem pyDictFind_single (k p msg : String) :
    pyDictFind [(PyVal.str k, msg)] (.str p) = if k = p then some msg else Option.none := by
  by_cases h : k = p
  · subst h
    simp [pyDictFind, List.find?]
  · have hb : (k == p) = false := beq_eq_false_iff_ne.mpr h
    simp [pyDictFind, List.find?, hb, h]

/-- One parameter-loop turn against a one-entry dict. -/
theorem paramStep_single (k msg : String) (g : GObj) (p : String) :
    paramStep [(.str k, msg)] g p = if k = p then _insert_message_on_param g p msg else g := by
  by_cases h : k = p
  · subst h
    rw [if_pos rfl]
    show (match pyDictFind [(PyVal.str k, msg)] (.str k) with
      | some m => _insert_message_on_param g k m
      | Option.none => g) = _insert_message_on_param g k msg
    rw [pyDictFind_single, if_pos rfl]
  · rw [if_neg h]
    show (match pyDictFind [(PyVal.str k, msg)] (.str p) with
      | some m => _insert_message_on_param g p m
      | Option.none => g) = g
    rw [pyDictFind_single, if_neg h]

/-- The parameter loop is the identity when the deprecated name does not occur
among the function parameters. -/
theorem foldl_paramStep_zero (k msg : String) (ps : List String) :
    ∀ (g : GObj), ps.count k = 0 → ps.foldl (paramStep [(.str k, msg)]) g = g := by
  induction ps with
  | nil => intro g _; rfl
  | cons p ps ih =>
    intro g hc
    rw [List.foldl_cons, paramStep_single]
    by_cases h : k = p
    · subst h
      rw [List.count_cons] at hc
      simp at hc
    · rw [if_neg h]
      apply ih
      rw [List.count_cons] at hc
      have hb1 : (p == k) = false := beq_eq_false_iff_ne.mpr fun hh => h hh.symm
      have hb2 : (k == p) = false := beq_eq_false_iff_ne.mpr h
      simpa [hb1, hb2] using hc

/-- The parameter loop inserts the message exactly once when the deprecated
name occurs exactly once among the function parameters. -/
theorem foldl_paramStep_one (k msg : String) (ps : List String) :
    ∀ (g : GObj), ps.count k = 1 →
      ps.foldl (paramStep [(.str k, msg)]) g = _insert_message_on_param g k msg := by
  induction ps with
  | nil => intro g hc; simp at hc
  | cons p ps ih =>
    intro g hc
    rw [List.foldl_cons, paramStep_single]
    by_cases h : k = p
    · subst h
      rw [if_pos rfl]
      have hc0 : ps.count k = 0 := by
        rw [List.count_cons] at hc
        simpa using hc
      exact foldl_paramStep_zero k msg ps _ hc0
    · rw [if_neg h]
      apply ih
      rw [List.count_cons] at hc
      have hb1 : (p == k) = false := beq_eq_false_iff_ne.mpr fun hh => h hh.symm
      have hb2 : (k == p) = false := beq_eq_false_iff_ne.mpr h
      simpa [hb1, hb2] using hc

/-- Claim C8: a function decorated with `params=["x"]`, `alternatives=
{"x": "y"}` and `since="2.0"` that documents its parameters has parameter `x`
prefixed (prepended) with a notice containing both `Deprecated since 2.0` and
`` use `y` instead ``, and every entry of a different name is untouched. -/
theorem C8_param_notice (cfg : ExtConfig) (func : GObj) (path : String) (f : GExpr)
    (ss : List DocSection)
    (hdec : func.decorators = [⟨path, .exprCall f
      [.exprKeyword "params" (.exprList [.lit (some (.str "x"))]),
       .exprKeyword "alternatives" (.exprDict [.lit (some (.str "x"))] [.lit (some (.str "y"))]),
       .exprKeyword "since" (.lit (some (.str "2.0")))]⟩])
    (hp : _decorators.contains path = true)
    (hf : f.isKeyword = false)
    (hdoc : func.docstring = some ss)
    (hcount : func.parameters.count "x" = 1) :
    on_function_instance cfg func =
        .ok { func with docstring := some (ss.map fun sec =>
          match sec with
          | .parameters ps => .parameters (ps.map fun p =>
              if p.name == "x" then ⟨p.name, exParamMsg ++ p.description⟩ else p)
          | sec => sec) } ∧
      (∃ pre post, exParamMsg = pre ++ "Deprecated since 2.0" ++ post) ∧
      (∃ pre post, exParamMsg = pre ++ "use `y` instead" ++ post) ∧
      (∀ p : DocstringParameter, p.name ≠ "x" →
        (if p.name == "x" then DocstringParameter.mk p.name (exParamMsg ++ p.description) else p) = p) := by
  have hm : decMatches ⟨path, .exprCall f
      [.exprKeyword "params" (.exprList [.lit (some (.str "x"))]),
       .exprKeyword "alternatives" (.exprDict [.lit (some (.str "x"))] [.lit (some (.str "y"))]),
       .exprKeyword "since" (.lit (some (.str "2.0")))]⟩ = true :=
    decMatches_call _ f _ hp rfl
  have hext : _braian_deprecate_params func = .ok ([(.str "x", exParamMsg)], []) := by
    rw [show _braian_deprecate_params func =
        braianLoop func.name func.decorators ⟨Option.none, [], []⟩ from rfl,
      hdec, braianLoop_match func.name _ [] _ hm]
    have hpc : processCallArgsP ⟨Option.none, [], []⟩ (.exprCall f
        [.exprKeyword "params" (.exprList [.lit (some (.str "x"))]),
         .exprKeyword "alternatives" (.exprDict [.lit (some (.str "x"))] [.lit (some (.str "y"))]),
         .exprKeyword "since" (.lit (some (.str "2.0")))]) =
        .ok ⟨some (.str "2.0"), [.str "x"], [(.str "x", .str "y")]⟩ := by
      show (GExpr.iterate _).foldlM paramArgStep _ = _
      rw [show GExpr.iterate (.exprCall f
          [.exprKeyword "params" (.exprList [.lit (some (.str "x"))]),
           .exprKeyword "alternatives" (.exprDict [.lit (some (.str "x"))] [.lit (some (.str "y"))]),
           .exprKeyword "since" (.lit (some (.str "2.0")))]) = f ::
          [.exprKeyword "params" (.exprList [.lit (some (.str "x"))]),
           .exprKeyword "alternatives" (.exprDict [.lit (some (.str "x"))] [.lit (some (.str "y"))]),
           .exprKeyword "since" (.lit (some (.str "2.0")))] from rfl,
        List.foldlM_cons, paramArgStep_nonkw _ f hf, exceptBind_ok]
      rfl
    rw [hpc, exceptBind_ok]
    rfl
  refine ⟨?_, ⟨"**", "**: use `y` instead.\n\n", rfl⟩,
    ⟨"**Deprecated since 2.0**: ", ".\n\n", rfl⟩, ?_⟩
  · unfold on_function_instance
    rw [hext, exceptBind_ok]
    show Except.ok (func.parameters.foldl (paramStep [(.str "x", exParamMsg)]) func) = _
    rw [foldl_paramStep_one "x" exParamMsg func.parameters func hcount]
    simp only [_insert_message_on_param, hdoc]
  · intro p h
    rw [if_neg fun hh => h (eq_of_beq hh)]

/-- Witness for C8 at the concrete documented function. -/
theorem C8_witness :
    on_function_instance (mkExtension "deprecated" (some "Deprecated") (some "deprecated")) exParamFunc =
      .ok { exParamFunc with docstring := some [.other "summary",
            .parameters [⟨"x", "**Deprecated since 2.0**: use `y` instead.\n\nold x."⟩, ⟨"z", "old z."⟩]] } :=
  (C8_param_notice (mkExtension "deprecated" (some "Deprecated") (some "deprecated")) exParamFunc
    "braian.utils.deprecated" exCallee
    [.other "summary", .parameters [⟨"x", "old x."⟩, ⟨"z", "old z."⟩]]
    rfl (by decide) rfl rfl (by decide)).1

theorem strAppend_assoc (a b c : String) : a ++ b ++ c = a ++ (b ++ c) := by
  apply String.ext
  simp [String.data_append]

theorem descFrame_refl (dp : List (PyVal × String)) (p : DocstringParameter) :
    descFrame dp p p :=
  ⟨rfl, ⟨"", rfl⟩, fun _ => rfl⟩

theorem descFrame_trans (dp : List (PyVal × String)) (p q r : DocstringParameter)
    (h1 : descFrame dp p q) (h2 : descFrame dp q r) : descFrame dp p r := by
  obtain ⟨hn1, ⟨pre1, hp1⟩, hu1⟩ := h1
  obtain ⟨hn2, ⟨pre2, hp2⟩, hu2⟩ := h2
  refine ⟨hn2.trans hn1, ⟨pre2 ++ pre1, ?_⟩, ?_⟩
  · rw [hp2, hp1, strAppend_assoc]
  · intro hfind
    rw [hu2 (by rw [hn1]; exact hfind), hu1 hfind]

theorem forall₂_trans_of {α : Type} {r : α → α → Prop}
    (tr : ∀ a b c, r a b → r b c → r a c) :
    ∀ (l1 l2 l3 : List α), List.Forall₂ r l1 l2 → List.Forall₂ r l2 l3 → List.Forall₂ r l1 l3 := by
  intro l1
  induction l1 with
  | nil =>
    intro l2 l3 h1 h2
    cases h1
    cases h2
    exact List.Forall₂.nil
  | cons x xs ih =>
    intro l2 l3 h1 h2
    cases h1 with
    | cons hx hxs =>
      cases h2 with
      | cons hy hys =>
        exact List.Forall₂.cons (tr _ _ _ hx hy) (ih _ _ hxs hys)

theorem secFrame_refl (dp : List (PyVal × String)) : ∀ s, secFrame dp s s
  | .parameters ps => List.forall₂_same.mpr fun x _ => descFrame_refl dp x
  | .admonition k ti te => rfl
  | .other tg => rfl

theorem secFrame_trans (dp : List (PyVal × String)) :
    ∀ s t u, secFrame dp s t → secFrame dp t u → secFrame dp s u := by
  intro s t u h1 h2
  cases s with
  | parameters ps =>
    cases t with
    | parameters qs =>
      cases u with
      | parameters rs => exact forall₂_trans_of (descFrame_trans dp) ps qs rs h1 h2
      | admonition k ti te => exact DocSection.noConfusion h2
      | other tg => exact DocSection.noConfusion h2
    | admonition k ti te => exact DocSection.noConfusion h1
    | other tg => exact DocSection.noConfusion h1
  | admonition k ti te =>
    have h1e : t = .admonition k ti te := h1
    subst h1e
    have h2e : u = .admonition k ti te := h2
    subst h2e
    rfl
  | other tg =>
    have h1e : t = .other tg := h1
    subst h1e
    have h2e : u = .other tg := h2
    subst h2e
    rfl

theorem docFrame_refl (dp : List (PyVal × String)) : ∀ od, docFrame dp od od
  | Option.none => trivial
  | some ss => List.forall₂_same.mpr fun x _ => secFrame_refl dp x

theorem objFrame_refl (dp : List (PyVal × String)) (g : GObj) : objFrame dp g g :=
  ⟨rfl, rfl, rfl, rfl, rfl, rfl, docFrame_refl dp g.docstring⟩

theorem objFrame_trans (dp : List (PyVal × String)) (a b c : GObj)
    (h1 : objFrame dp a b) (h2 : objFrame dp b c) : objFrame dp a c := by
  obtain ⟨n1, a1, d1, p1, q1, l1, f1⟩ := h1
  obtain ⟨n2, a2, d2, p2, q2, l2, f2⟩ := h2
  refine ⟨n2.trans n1, a2.trans a1, d2.trans d1, p2.trans p1, q2.trans q1, l2.trans l1, ?_⟩
  cases ha : a.docstring with
  | none =>
    rw [ha] at f1
    cases hb : b.docstring with
    | none =>
      rw [hb] at f2
      cases hc : c.docstring with
      | none => trivial
      | some ts => rw [hc] at f2; exact f2.elim
    | some ts => rw [hb] at f1; exact f1.elim
  | some ss =>
    rw [ha] at f1
    cases hb : b.docstring with
    | none => rw [hb] at f1; exact f1.elim
    | some ts =>
      rw [hb] at f1 f2
      cases hc : c.docstring with
      | none => rw [hc] at f2; exact f2.elim
      | some us =>
        rw [hc] at f2
        exact forall₂_trans_of (secFrame_trans dp) ss ts us f1 f2

theorem objFrame_insertParam (dp : List (PyVal × String)) (g : GObj) (pname msg : String)
    (hfind : pyDictFind dp (.str pname) = some msg) :
    objFrame dp g (_insert_message_on_param g pname msg) := by
  unfold _insert_message_on_param
  cases hd : g.docstring with
  | none => exact objFrame_refl dp g
  | some ss =>
    refine ⟨rfl, rfl, rfl, rfl, rfl, rfl, ?_⟩
    show docFrame dp g.docstring (some (ss.map fun s =>
      match s with
      | .parameters ps => .parameters (ps.map fun p =>
          if p.name == pname then ⟨p.name, msg ++ p.description⟩ else p)
      | s => s))
    rw [hd]
    show List.Forall₂ (secFrame dp) ss (ss.map fun s =>
      match s with
      | .parameters ps => .parameters (ps.map fun p =>
          if p.name == pname then ⟨p.name, msg ++ p.description⟩ else p)
      | s => s)
    rw [List.forall₂_map_right_iff]
    rw [List.forall₂_same]
    intro sec hsec
    cases sec with
    | parameters ps =>
      show List.Forall₂ (descFrame dp) ps (ps.map fun p =>
        if p.name == pname then ⟨p.name, msg ++ p.description⟩ else p)
      rw [List.forall₂_map_right_iff]
      rw [List.forall₂_same]
      intro p hp
      by_cases h : p.name = pname
      · show descFrame dp p (if p.name == pname then ⟨p.name, msg ++ p.description⟩ else p)
        rw [if_pos (by rw [h]; exact beq_self_eq_true pname)]
        refine ⟨rfl, ⟨msg, rfl⟩, ?_⟩
        intro hnone
        rw [h, hfind] at hnone
        exact Option.noConfusion hnone
      · show descFrame dp p (if p.name == pname then ⟨p.name, msg ++ p.description⟩ else p)
        rw [if_neg fun hh => h (eq_of_beq hh)]
        exact descFrame_refl dp p
    | admonition k ti te => rfl
    | other tg => rfl

theorem objFrame_paramStep (dp : List (PyVal × String)) (g : GObj) (p : String) :
    objFrame dp g (paramStep dp g p) := by
  show objFrame dp g (match pyDictFind dp (.str p) with
    | some msg => _insert_message_on_param g p msg
    | Option.none => g)
  cases hfind : pyDictFind dp (.str p) with
  | none => exact objFrame_refl dp g
  | some msg => exact objFrame_insertParam dp g p msg hfind

theorem objFrame_foldl (dp : List (PyVal × String)) (ps : List String) :
    ∀ g : GObj, objFrame dp g (ps.foldl (paramStep dp) g) := by
  induction ps with
  | nil => intro g; exact objFrame_refl dp g
  | cons p ps ih =>
    intro g
    rw [List.foldl_cons]
    exact objFrame_trans dp _ _ _ (objFrame_paramStep dp g p) (ih _)

/-- Claim C10: when the per-parameter path applies (non-empty extracted
metadata), the hook only rewrites docstring parameter descriptions: the result
is the parameter fold, and the frame relation shows `deprecated`, `labels` and
every other attribute unchanged, no docstring section inserted or removed,
admonitions untouched, and only entries whose name is a key of the extracted
dict touched (those at most gain a leading piece of text). -/
theorem C10_param_frame (cfg : ExtConfig) (func : GObj) (dp : List (PyVal × String))
    (logs : List String)
    (hbp : _braian_deprecate_params func = .ok (dp, logs))
    (hne : dp ≠ []) :
    on_function_instance cfg func = .ok (func.parameters.foldl (paramStep dp) func) ∧
      objFrame dp func (func.parameters.foldl (paramStep dp) func) := by
  have hie : dp.isEmpty = false := by
    cases dp with
    | nil => exact absurd rfl hne
    | cons a l => rfl
  constructor
  · unfold on_function_instance
    rw [hbp, exceptBind_ok]
    simp [hie]
  · exact objFrame_foldl dp func.parameters func

/-- Witness for C10 at the concrete documented function. -/
theorem C10_witness :
    on_function_instance (mkExtension "deprecated" (some "Deprecated") (some "deprecated")) exParamFunc =
        .ok (exParamFunc.parameters.foldl (paramStep [(.str "x", exParamMsg)]) exParamFunc) ∧
      objFrame [(.str "x", exParamMsg)] exParamFunc
        (exParamFunc.parameters.foldl (paramStep [(.str "x", exParamMsg)]) exParamFunc) :=
  C10_param_frame (mkExtension "deprecated" (some "Deprecated") (some "deprecated")) exParamFunc
    [(.str "x", exParamMsg)] [] rfl (fun h => List.noConfusion h)

end GriffeWD
